import Mathlib

/-!
Verification development for the inconnect-agent control plane
(repository ss-agent).  The relational slot store, the per-shard
reconciler pipeline, the HTTP handlers and the restart scheduler are
shallowly embedded as pure Lean functions over explicit state.  The
SQLite table `slots` is modelled as a `List Slot` (the primary key
`port` is the slot id), timestamps as naturals, and the
cryptographically random password generator as an indexed supply
`fresh : Nat → String` threaded through the operations.
-/

/-- Status column of a slot row: `free`, `used` or `reserved`
(store.go constants `slotStatusFree/Used/Reserved`). -/
inductive SlotStatus
  | free
  | used
  | reserved
deriving DecidableEq, Repr

/-- One row of the `slots` table (store.go `Slot` plus the
`updated_at` column).  `id` is the `port` primary-key column,
`userId` models the nullable `user_id` column. -/
structure Slot where
  id : Nat
  shardId : Nat
  password : String
  status : SlotStatus
  userId : Option String
  updatedAt : Nat
deriving DecidableEq, Repr

/-- config.go `ShardDefinition`. -/
structure ShardDefinition where
  id : Nat
  port : Nat
  slotCount : Nat
  containerName : String
  apiPort : Nat
deriving DecidableEq, Repr

/-- Errors surfaced by `AllocateSlot` (store.go `errNoFreePorts` and the
"slot allocation conflict" error). -/
inductive AllocErr
  | noFreePorts
  | conflict
deriving DecidableEq, Repr

/-- One step of the minimum-free-row scan: keep the free row with the
least slot id seen so far. -/
def minFreeStep (acc : Option Slot) (r : Slot) : Option Slot :=
  if r.status = SlotStatus.free then
    match acc with
    | none => some r
    | some b => if r.id < b.id then some r else some b
  else acc

/-- The row selected by
`SELECT port, password, shard_id FROM slots WHERE status = 'free'
ORDER BY port LIMIT 1` (store.go AllocateSlot): the free row with least
slot id. -/
def minFreeRow (tbl : List Slot) : Option Slot :=
  tbl.foldl minFreeStep none

/-- The conditional update of store.go AllocateSlot:
`UPDATE slots SET status='used', user_id=?, updated_at=?
WHERE port = ? AND status = 'free'`. -/
def allocUpdate (slotID : Nat) (userValue : Option String) (now : Nat)
    (tbl : List Slot) : List Slot :=
  tbl.map fun r =>
    if r.id = slotID ∧ r.status = SlotStatus.free then
      { r with status := SlotStatus.used, userId := userValue, updatedAt := now }
    else r

/-- Number of rows affected by `allocUpdate` (the `RowsAffected` check). -/
def allocAffected (slotID : Nat) (tbl : List Slot) : Nat :=
  (tbl.filter fun r => r.id = slotID ∧ r.status = SlotStatus.free).length

/-- store.go `AllocateSlot`: one serializable transaction that selects
the minimum-id free row, marks it used, sets `user_id` when the argument
is non-empty and bumps `updated_at`.  On any error the transaction rolls
back, so the table component is returned unchanged. -/
def AllocateSlot (userID : String) (now : Nat) (tbl : List Slot) :
    Except AllocErr Slot × List Slot :=
  match minFreeRow tbl with
  | none => (Except.error AllocErr.noFreePorts, tbl)
  | some row =>
    let userValue : Option String := if userID = "" then none else some userID
    if allocAffected row.id tbl = 0 then
      (Except.error AllocErr.conflict, tbl)
    else
      (Except.ok
        { id := row.id, shardId := row.shardId, password := row.password,
          status := SlotStatus.used, userId := none, updatedAt := 0 },
        allocUpdate row.id userValue now tbl)

/-- Domain errors of store.go `ReserveSlot`. -/
inductive ReserveErr
  | slotNotFound
  | slotReserved
  | slotFree
  | slotNotInUse
deriving DecidableEq, Repr

/-- `SELECT status FROM slots WHERE port = ?` (store.go `slotStatus`);
`none` models `sql.ErrNoRows`. -/
def slotStatusOf (slotID : Nat) (tbl : List Slot) : Option SlotStatus :=
  (tbl.find? fun r => r.id = slotID).map Slot.status

/-- The conditional update of store.go ReserveSlot:
`UPDATE slots SET status='reserved', user_id=NULL, updated_at=?
WHERE port = ? AND status = 'used'`. -/
def reserveUpdate (slotID : Nat) (now : Nat) (tbl : List Slot) : List Slot :=
  tbl.map fun r =>
    if r.id = slotID ∧ r.status = SlotStatus.used then
      { r with status := SlotStatus.reserved, userId := none, updatedAt := now }
    else r

/-- store.go `ReserveSlot`: conditional USED → RESERVED update; when zero
rows were affected the status is re-read to distinguish free, reserved
and missing slots (the default switch arm yields `slotNotInUse`). -/
def ReserveSlot (slotID : Nat) (now : Nat) (tbl : List Slot) :
    Except ReserveErr Unit × List Slot :=
  let affected := (tbl.filter fun r => r.id = slotID ∧ r.status = SlotStatus.used).length
  let tbl1 := reserveUpdate slotID now tbl
  if affected = 1 then (Except.ok (), tbl1)
  else
    match slotStatusOf slotID tbl1 with
    | none => (Except.error ReserveErr.slotNotFound, tbl1)
    | some SlotStatus.free => (Except.error ReserveErr.slotFree, tbl1)
    | some SlotStatus.reserved => (Except.error ReserveErr.slotReserved, tbl1)
    | some SlotStatus.used => (Except.error ReserveErr.slotNotInUse, tbl1)

/-- HTTP mapping of reserve errors in handleDeleteUser: status code and
stable error string. -/
def reserveHttpError : ReserveErr → Nat × String
  | ReserveErr.slotNotFound => (404, "slot_not_found")
  | ReserveErr.slotReserved => (400, "already_reserved")
  | ReserveErr.slotFree => (400, "slot_not_in_use")
  | ReserveErr.slotNotInUse => (400, "slot_not_in_use")

/-- One update of the RotateReserved loop:
`UPDATE slots SET password=?, status='free', updated_at=? WHERE port=?`. -/
def rotateUpdate (slotID : Nat) (pwd : String) (now : Nat)
    (tbl : List Slot) : List Slot :=
  tbl.map fun r =>
    if r.id = slotID then
      { r with password := pwd, status := SlotStatus.free, updatedAt := now }
    else r

/-- The per-row loop of store.go RotateReserved: for each selected slot id,
draw the next password from the supply and apply `rotateUpdate`.
Returns (count, next counter, table). -/
def rotateLoop (fresh : Nat → String) (now : Nat) :
    List Nat → Nat → Nat → List Slot → Nat × Nat × List Slot
  | [], ctr, count, tbl => (count, ctr, tbl)
  | i :: rest, ctr, count, tbl =>
      rotateLoop fresh now rest (ctr + 1) (count + 1)
        (rotateUpdate i (fresh ctr) now tbl)

/-- store.go `RotateReserved`: in one transaction, for each reserved row
of the shard (`SELECT port FROM slots WHERE status='reserved' AND
shard_id=? ORDER BY port`) generate a new password and set the row free;
return the number of rows processed. -/
def RotateReserved (fresh : Nat → String) (ctr : Nat) (now : Nat)
    (shardID : Nat) (tbl : List Slot) : Nat × Nat × List Slot :=
  let ids :=
    List.insertionSort (· ≤ ·)
      ((tbl.filter fun r =>
          r.status = SlotStatus.reserved ∧ r.shardId = shardID).map Slot.id)
  rotateLoop fresh now ids ctr 0 tbl

/-- store.go `SlotsByShard`:
`SELECT ... FROM slots WHERE shard_id = ? ORDER BY port LIMIT ?`, then
require exactly `expected` rows.  Note the query itself is capped at
`expected` rows by the LIMIT clause. -/
def SlotsByShard (shardID expected : Nat) (tbl : List Slot) :
    Except String (List Slot) :=
  let rows :=
    (List.insertionSort (fun a b => a.id ≤ b.id)
      (tbl.filter fun r => r.shardId = shardID)).take expected
  if rows.length = expected then Except.ok rows
  else Except.error "shape_mismatch"

/-- The runtime configuration fields of config.go `Config` that the
verified operations consume (`shardPrefixStr` embeds the `shardPrefix`
option). -/
structure Config where
  minPort : Nat
  maxPort : Nat
  method : String
  publicIP : String
  apiPort : Nat
  shardCount : Nat
  shardSize : Nat
  shardPortStep : Nat
  shardRaw : String
  shardPrefixStr : String
  allocStrategy : String
deriving DecidableEq, Repr

/-- config.go `defaultConfig`, restricted to the embedded fields. -/
def defaultConfig : Config :=
  { minPort := 50001, maxPort := 50250, method := "2022-blake3-aes-128-gcm",
    publicIP := "", apiPort := 10085, shardCount := 1, shardSize := 0,
    shardPortStep := 1, shardRaw := "", shardPrefixStr := "xray-ss2022",
    allocStrategy := "roundrobin" }

/-- config.go `portCount`. -/
def Config.portCount (c : Config) : Nat := c.maxPort - c.minPort + 1

/-- config.go `shardContainer`. -/
def Config.shardContainer (c : Config) (shardID : Nat) : String :=
  c.shardPrefixStr ++ "-" ++ toString shardID

/-- config.go `shardAPIPortFor`. -/
def Config.shardAPIPortFor (c : Config) (i : Nat) : Nat :=
  if c.apiPort = 0 then 0 else c.apiPort + i - 1

/-- config.go `defaultShardSize`. -/
def Config.defaultShardSize (c : Config) : Nat :=
  if c.shardSize > 0 then c.shardSize else c.portCount

/-- config.go `defaultShardCount`. -/
def Config.defaultShardCount (c : Config) : Nat :=
  if c.shardCount > 0 then c.shardCount else 1

/-- `strings.TrimSpace` modelled structurally on the character list
(drop leading and trailing whitespace). -/
def trimStr (s : String) : String :=
  String.mk
    (((s.data.dropWhile Char.isWhitespace).reverse.dropWhile
      Char.isWhitespace).reverse)

/-- `strings.Split` on a one-character separator, modelled structurally
(both separators the agent splits on — `,` and `:` — are single
characters). -/
def splitOnSep (sep : Char) : List Char → List (List Char)
  | [] => [[]]
  | c :: rest =>
    if c = sep then [] :: splitOnSep sep rest
    else
      match splitOnSep sep rest with
      | [] => [[c]]
      | h :: t => (c :: h) :: t

/-- `strings.Split` lifted to strings. -/
def splitStr (sep : Char) (s : String) : List String :=
  (splitOnSep sep s.data).map String.mk

/-- Digit-list accumulator of the `strconv.Atoi` model. -/
def digitsToNatGo : List Char → Nat → Option Nat
  | [], acc => some acc
  | c :: rest, acc =>
    if c.isDigit then digitsToNatGo rest (acc * 10 + (c.toNat - '0'.toNat))
    else none

/-- `strconv.Atoi` modelled for the non-negative numerals the shard
option uses (any other input is a parse error, as in Go). -/
def parseNat? (s : String) : Option Nat :=
  match s.data with
  | [] => none
  | l => digitsToNatGo l 0

/-- One entry of config.go `shardsFromRaw`: parse `port:slots`
(`strconv.Atoi` modelled by `parseNat?`; the agent only accepts
positive slot counts). -/
def parseShardEntry (c : Config) (idx : Nat) (part : String) :
    Except String ShardDefinition :=
  match splitStr ':' part with
  | [p, s] =>
    match parseNat? p, parseNat? s with
    | some port, some slots =>
      if slots = 0 then Except.error "shard slots must be positive"
      else
        Except.ok
          { id := idx + 1, port := port, slotCount := slots,
            containerName := c.shardContainer (idx + 1),
            apiPort := c.shardAPIPortFor (idx + 1) }
    | _, _ => Except.error "invalid shard number"
  | _ => Except.error "invalid shard format"

/-- The accumulation loop of config.go `shardsFromRaw` (empty pieces are
skipped; indices follow the surviving entries). -/
def shardsFromRawLoop (c : Config) :
    List String → Nat → Except String (List ShardDefinition)
  | [], _ => Except.ok []
  | part :: rest, idx =>
    let t := trimStr part
    if t = "" then shardsFromRawLoop c rest idx
    else
      match parseShardEntry c idx t with
      | Except.error e => Except.error e
      | Except.ok d =>
        match shardsFromRawLoop c rest (idx + 1) with
        | Except.error e => Except.error e
        | Except.ok ds => Except.ok (d :: ds)

/-- config.go `shardsFromRaw`: `none` when the raw option is blank. -/
def Config.shardsFromRaw (c : Config) :
    Except String (Option (List ShardDefinition)) :=
  if trimStr c.shardRaw = "" then Except.ok none
  else
    match shardsFromRawLoop c (splitStr ',' c.shardRaw) 0 with
    | Except.error e => Except.error e
    | Except.ok [] => Except.error "no valid shard definitions provided"
    | Except.ok ds => Except.ok (some ds)

/-- config.go `BuildShards`: explicit raw list if provided, otherwise
`shardCount` shards of `defaultShardSize` slots at
`minPort + i * shardPortStep`. -/
def Config.BuildShards (c : Config) : Except String (List ShardDefinition) :=
  match c.shardsFromRaw with
  | Except.error e => Except.error e
  | Except.ok (some ds) => Except.ok ds
  | Except.ok none =>
    let size := c.defaultShardSize
    let count := c.defaultShardCount
    if size = 0 ∨ count = 0 then Except.error "invalid shard size/count configuration"
    else
      Except.ok <|
        (List.range count).map fun i =>
          { id := i + 1, port := c.minPort + i * c.shardPortStep,
            slotCount := size,
            containerName := c.shardContainer (i + 1),
            apiPort := c.shardAPIPortFor (i + 1) }

/-- The shard-range assignment loop of store.go `ensureSlots`: slots
keep the seeded default `shard_id = 1` unless a declared range
`[offset+1, offset+slotCount]` claims them. -/
def shardAssign : List ShardDefinition → Nat → Nat → Nat
  | [], _, _ => 1
  | sh :: rest, offset, slotID =>
    if offset + 1 ≤ slotID ∧ slotID ≤ offset + sh.slotCount then sh.id
    else shardAssign rest (offset + sh.slotCount) slotID

/-- store.go `ensureSlots` on an empty table: seed
`slot_id ∈ 1..Σ slotCount` rows, each free with a fresh password, and
assign contiguous id ranges to the shards in declaration order. -/
def seedSlots (fresh : Nat → String) (now : Nat)
    (shards : List ShardDefinition) : List Slot :=
  (List.range ((shards.map ShardDefinition.slotCount).sum)).map fun i =>
    { id := i + 1, shardId := shardAssign shards 0 (i + 1), password := fresh i,
      status := SlotStatus.free, userId := none, updatedAt := now }

/-- One `users` entry of the sing-box config (buildSingboxConfig): the
slot password under name `user_id` when set, else `slot-<id>`.  Braces
of the JSON text are written with escapes. -/
def singboxUserJson (slot : Slot) : String :=
  let name :=
    match slot.userId with
    | some u => if u = "" then "slot-" ++ toString slot.id else u
    | none => "slot-" ++ toString slot.id
  "\x7b\"name\":\"" ++ name ++ "\",\"password\":\"" ++ slot.password ++ "\"\x7d"

/-- The deterministic byte stream produced by buildSingboxConfig
(part_003): log header, one shadowsocks inbound on the shard port with
the server PSK as inbound password and all slots as users, a direct
outbound, and an api listener when `apiPort > 0`.  JSON field order and
whitespace follow a fixed textual encoding of the marshalled struct. -/
def buildSingboxConfig (slots : List Slot) (shard : ShardDefinition)
    (method serverPassword : String) : String :=
  let users := String.intercalate "," (slots.map singboxUserJson)
  let apiBlock :=
    if shard.apiPort > 0 then
      "\"api\":\x7b\"listen\":\"0.0.0.0:" ++ toString shard.apiPort ++ "\"\x7d,"
    else ""
  "\x7b\"log\":\x7b\"level\":\"info\",\"timestamp\":true\x7d," ++ apiBlock ++
    "\"inbounds\":[\x7b\"type\":\"shadowsocks\",\"tag\":\"shard-" ++
    toString shard.id ++ "-ss\",\"listen\":\"0.0.0.0\",\"listen_port\":" ++
    toString shard.port ++ ",\"method\":\"" ++ method ++
    "\",\"password\":\"" ++ serverPassword ++ "\",\"users\":[" ++ users ++
    "],\"network\":\"tcp,udp\"\x7d],\"outbounds\":[\x7b\"type\":\"direct\"\x7d]\x7d"

/-- The two config paths a shard owns:
`config-shard-<id>.json` (active) and
`config-shard-<id>.generated.json` (pending).  `none` models an absent
file. -/
structure ShardFS where
  active : Option String
  generated : Option String
deriving DecidableEq, Repr

/-- Errors surfaced by the reconcile pipeline. -/
inductive ReloadErr
  | shapeMismatch
  | validationFailed
  | applyFailed
deriving DecidableEq, Repr

/-- part_003 `reloadShard`: optional rotate-reserved, read the shard's
slot set, build the config bytes, write the pending file, validate it
out of band (`validate` models the exit status of the ephemeral
`check -c` container), atomically rename onto the active path, then
apply (`hardRestart` selects FullRestartShard over ApplyShard; the
oracles `applyOk`/`restartOk` model those container calls).
Returns (result, password counter, table, shard files). -/
def reloadShard (validate : String → Bool) (applyOk restartOk : Bool)
    (shard : ShardDefinition) (method serverPassword : String)
    (rotate hardRestart : Bool) (fresh : Nat → String) (ctr now : Nat)
    (tbl : List Slot) (fs : ShardFS) :
    Except ReloadErr Nat × Nat × List Slot × ShardFS :=
  let rot :=
    if rotate then RotateReserved fresh ctr now shard.id tbl
    else (0, ctr, tbl)
  match SlotsByShard shard.id shard.slotCount rot.2.2 with
  | Except.error _ => (Except.error ReloadErr.shapeMismatch, rot.2.1, rot.2.2, fs)
  | Except.ok slots =>
    let payload := buildSingboxConfig slots shard method serverPassword
    let fs1 : ShardFS := { fs with generated := some payload }
    if validate payload then
      let fs2 : ShardFS := { active := some payload, generated := none }
      if (if hardRestart then restartOk else applyOk) then
        (Except.ok rot.1, rot.2.1, rot.2.2, fs2)
      else (Except.error ReloadErr.applyFailed, rot.2.1, rot.2.2, fs2)
    else
      (Except.error ReloadErr.validationFailed, rot.2.1, rot.2.2,
        { fs1 with generated := none })

/-- The pending config bytes a `reloadShard` run will submit to
validation (an error when the slot read fails the shape check). -/
def reloadPayload (shard : ShardDefinition) (method serverPassword : String)
    (rotate : Bool) (fresh : Nat → String) (ctr now : Nat)
    (tbl : List Slot) : Except ReloadErr String :=
  let rot :=
    if rotate then RotateReserved fresh ctr now shard.id tbl
    else (0, ctr, tbl)
  match SlotsByShard shard.id shard.slotCount rot.2.2 with
  | Except.error _ => Except.error ReloadErr.shapeMismatch
  | Except.ok slots =>
    Except.ok (buildSingboxConfig slots shard method serverPassword)

/-- Process-wide mutable state threaded through the reconciler: the
password-supply counter, the slot table, and each shard's config
files. -/
structure AgentState where
  ctr : Nat
  tbl : List Slot
  files : Nat → ShardFS

/-- Per-shard oracles for the container-engine calls of one reconcile
batch: config validation outcome, hot-apply outcome, restart outcome,
and the per-shard server PSK cache. -/
structure ReloadEnv where
  validate : Nat → String → Bool
  applyOk : Nat → Bool
  restartOk : Nat → Bool
  serverPassword : Nat → String
  method : String
  fresh : Nat → String
  now : Nat

/-- `reloadShard` lifted to the agent state: it reads and writes only
the files of its own shard. -/
def reloadShardSt (env : ReloadEnv) (shard : ShardDefinition)
    (rotate hardRestart : Bool) (st : AgentState) :
    Except ReloadErr Nat × AgentState :=
  let r := reloadShard (env.validate shard.id) (env.applyOk shard.id)
    (env.restartOk shard.id) shard env.method (env.serverPassword shard.id)
    rotate hardRestart env.fresh st.ctr env.now st.tbl (st.files shard.id)
  (r.1,
    { ctr := r.2.1, tbl := r.2.2.1,
      files := fun j => if j = shard.id then r.2.2.2 else st.files j })

/-- The shard loop of part_003 `reloadWithLock`: drive the shards
sequentially, record each successful shard's rotate count under its id,
and stop at the first error, returning the partial result map together
with the error. -/
def runShards (env : ReloadEnv) (rotate hardRestart : Bool) :
    List ShardDefinition → AgentState →
    List (Nat × Nat) × Option ReloadErr × AgentState
  | [], st => ([], none, st)
  | shard :: rest, st =>
    let step := reloadShardSt env shard rotate hardRestart st
    match step.1 with
    | Except.error e => ([], some e, step.2)
    | Except.ok count =>
      let next := runShards env rotate hardRestart rest step.2
      ((shard.id, count) :: next.1, next.2.1, next.2.2)

/-- part_003 `shardList`: an empty target means every shard; otherwise
resolve each requested id against the shard map. -/
def shardList (shards : List ShardDefinition) (target : List Nat) :
    Except String (List ShardDefinition) :=
  if target = [] then Except.ok shards
  else
    target.foldr
      (fun i acc =>
        match shards.find? (fun sh => sh.id = i), acc with
        | none, _ => Except.error "unknown shard_id"
        | _, Except.error e => Except.error e
        | some sh, Except.ok ds => Except.ok (sh :: ds))
      (Except.ok [])

/-- part_003 `reloadWithLock` under the reload mutex: resolve the target
list and run the shard loop. -/
def reloadWithLock (env : ReloadEnv) (shards : List ShardDefinition)
    (target : List Nat) (rotate hardRestart : Bool) (st : AgentState) :
    Except String (List (Nat × Nat) × Option ReloadErr × AgentState) :=
  match shardList shards target with
  | Except.error e => Except.error e
  | Except.ok ds => Except.ok (runShards env rotate hardRestart ds st)

/-- The success payload of the sharded `/adduser` handler
(part_003 handleAddUser). -/
structure AddUserResp where
  slotId : Nat
  shardId : Nat
  listenPort : Nat
  password : String
  method : String
  ip : String
  freeSlots : Nat
deriving DecidableEq, Repr

/-- part_003 `handleAddUser` (sharded variant): allocate a slot, resolve
its shard, read the stats totals, and answer with the composite
credential `<server_psk>:<slot_password>`.  Errors carry the HTTP status
and the stable error code of the JSON body. -/
def handleAddUser (serverPassword : Nat → String)
    (shards : List ShardDefinition) (method ip : String)
    (userID : String) (now : Nat) (tbl : List Slot) :
    Except (Nat × String) AddUserResp × List Slot :=
  let a := AllocateSlot userID now tbl
  match a.1 with
  | Except.error AllocErr.noFreePorts =>
    (Except.error (409, "no_free_ports"), a.2)
  | Except.error AllocErr.conflict =>
    (Except.error (500, "internal_error"), a.2)
  | Except.ok slot =>
    match shards.find? (fun sh => sh.id = slot.shardId) with
    | none => (Except.error (500, "unknown_shard"), a.2)
    | some shard =>
      let totalsFree := (a.2.filter fun r => r.status = SlotStatus.free).length
      (Except.ok
        { slotId := slot.id, shardId := shard.id, listenPort := shard.port,
          password := serverPassword shard.id ++ ":" ++ slot.password,
          method := method, ip := ip, freeSlots := totalsFree }, a.2)

/-- Nanoseconds in one UTC day. -/
def dayNs : Nat := 86400 * 1000000000

/-- An `HH:MM` entry converted to a duration since midnight
(`time.Duration(h)*Hour + time.Duration(m)*Minute` in
StartScheduledRestarts). -/
def scheduleNs (t : Nat × Nat) : Nat := (t.1 * 3600 + t.2 * 60) * 1000000000

/-- The scan of the sorted schedule in StartScheduledRestarts: the wait
until the first entry strictly after the current elapsed time, if any. -/
def nextWaitLoop : List Nat → Nat → Option Nat
  | [], _ => none
  | s :: rest, elapsed =>
    if elapsed < s then some (s - elapsed) else nextWaitLoop rest elapsed

/-- The wait computation of part_003 `StartScheduledRestarts`: parse the
`HH:MM` entries to durations, sort ascending, take the first entry
strictly after `elapsed`; when none remains today, wrap to
`24h - elapsed + schedule[0]`.  `none` when the schedule is empty. -/
def scheduledRestartWait (times : List (Nat × Nat)) (elapsed : Nat) :
    Option Nat :=
  let schedule := (times.map scheduleNs).insertionSort (· ≤ ·)
  match schedule with
  | [] => none
  | first :: _ =>
    match nextWaitLoop schedule elapsed with
    | some w => some w
    | none => some (dayNs - elapsed + first)

/-- Modelled from the spec: the strategy-aware slot store is not part of
the provided sources (`main` constructs it via
`NewSlotStore(db, cfg.AllocStrategy, shards)` and the shipped store.go
exposes only the strategy-free `NewSlotStore(db)`), so the `roundrobin`
row selection is modelled from §4.1: per-shard cursors start at 0, and
an allocation prefers the shard with the earliest cursor (ties by
declaration order) whose cursor position within the shard's id-ordered
slots is FREE, then advances that cursor.  The slot position lookup
within a shard. -/
def rrSlotAt (tbl : List Slot) (shardID cursor : Nat) : Option Slot :=
  (List.insertionSort (fun a b => a.id ≤ b.id)
    (tbl.filter fun r => r.shardId = shardID)).get? cursor

/-- Modelled from the spec: choose the shard with the least cursor whose
cursor-position slot is FREE (ties keep the earlier shard in
declaration order). -/
def rrPick (tbl : List Slot) (cursors : Nat → Nat) :
    List ShardDefinition → Option ShardDefinition
  | [] => none
  | sh :: rest =>
    let ok : Bool :=
      match rrSlotAt tbl sh.id (cursors sh.id) with
      | some s => s.status == SlotStatus.free
      | none => false
    match rrPick tbl cursors rest with
    | none => if ok then some sh else none
    | some best =>
      if ok = true ∧ cursors sh.id ≤ cursors best.id then some sh else some best

/-- Modelled from the spec: one `roundrobin` allocation over
(cursors, table); the selected slot is marked used exactly as in the
shared transactional envelope of AllocateSlot. -/
def rrAllocate (shards : List ShardDefinition) (userID : String)
    (now : Nat) (cursors : Nat → Nat) (tbl : List Slot) :
    Except AllocErr Slot × (Nat → Nat) × List Slot :=
  match rrPick tbl cursors shards with
  | none => (Except.error AllocErr.noFreePorts, cursors, tbl)
  | some sh =>
    match rrSlotAt tbl sh.id (cursors sh.id) with
    | none => (Except.error AllocErr.noFreePorts, cursors, tbl)
    | some row =>
      let userValue : Option String := if userID = "" then none else some userID
      (Except.ok
        { id := row.id, shardId := row.shardId, password := row.password,
          status := SlotStatus.used, userId := none, updatedAt := 0 },
        fun j => if j = sh.id then cursors sh.id + 1 else cursors j,
        allocUpdate row.id userValue now tbl)

/-- Modelled from the spec: run `n` sequential roundrobin allocations,
collecting the allocated slots in order. -/
def rrRun (shards : List ShardDefinition) (userID : String) (now : Nat) :
    Nat → (Nat → Nat) → List Slot → List Slot
  | 0, _, _ => []
  | n + 1, cursors, tbl =>
    match rrAllocate shards userID now cursors tbl with
    | (Except.error _, _, _) => []
    | (Except.ok slot, cursors1, tbl1) =>
      slot :: rrRun shards userID now n cursors1 tbl1

lemma minFreeStep_eq_none {acc : Option Slot} {a : Slot}
    (h : minFreeStep acc a = none) :
    acc = none ∧ a.status ≠ SlotStatus.free := by
  unfold minFreeStep at h
  by_cases hf : a.status = SlotStatus.free
  · rw [if_pos hf] at h
    cases acc with
    | none => simp at h
    | some b =>
      by_cases hlt : a.id < b.id <;> simp [hlt] at h
  · rw [if_neg hf] at h
    exact ⟨h, hf⟩

lemma minFreeStep_cases (acc : Option Slot) (a : Slot) :
    (a.status ≠ SlotStatus.free ∧ minFreeStep acc a = acc) ∨
    (a.status = SlotStatus.free ∧ acc = none ∧ minFreeStep acc a = some a) ∨
    (a.status = SlotStatus.free ∧ ∃ b, acc = some b ∧
      ((a.id < b.id ∧ minFreeStep acc a = some a) ∨
        (¬ a.id < b.id ∧ minFreeStep acc a = some b))) := by
  unfold minFreeStep
  by_cases hf : a.status = SlotStatus.free
  · cases acc with
    | none => exact Or.inr (Or.inl ⟨hf, rfl, by rw [if_pos hf]⟩)
    | some b =>
      refine Or.inr (Or.inr ⟨hf, b, rfl, ?_⟩)
      by_cases hlt : a.id < b.id
      · exact Or.inl ⟨hlt, by rw [if_pos hf]; simp [hlt]⟩
      · exact Or.inr ⟨hlt, by rw [if_pos hf]; simp [hlt]⟩
  · exact Or.inl ⟨hf, by rw [if_neg hf]⟩

lemma foldl_minFreeStep_eq_none {tbl : List Slot} :
    ∀ {acc : Option Slot}, tbl.foldl minFreeStep acc = none →
      acc = none ∧ ∀ r ∈ tbl, r.status ≠ SlotStatus.free := by
  induction tbl with
  | nil => intro acc h; simpa using h
  | cons a rest ih =>
    intro acc h
    have h1 : rest.foldl minFreeStep (minFreeStep acc a) = none := by
      simpa using h
    obtain ⟨hstep, hrest⟩ := ih h1
    obtain ⟨hacc, ha⟩ := minFreeStep_eq_none hstep
    refine ⟨hacc, ?_⟩
    intro r hr
    rcases List.mem_cons.mp hr with rfl | hr
    · exact ha
    · exact hrest r hr

lemma foldl_minFreeStep_eq_some {tbl : List Slot} :
    ∀ {acc : Option Slot} {m : Slot}, tbl.foldl minFreeStep acc = some m →
      (acc = some m ∨ (m ∈ tbl ∧ m.status = SlotStatus.free)) ∧
      (∀ r ∈ tbl, r.status = SlotStatus.free → m.id ≤ r.id) ∧
      (∀ b, acc = some b → m.id ≤ b.id) := by
  induction tbl with
  | nil =>
    intro acc m h
    simp only [List.foldl_nil] at h
    refine ⟨Or.inl h, by simp, ?_⟩
    intro b hb
    rw [hb] at h
    cases h
    exact Nat.le_refl _
  | cons a rest ih =>
    intro acc m h
    have h1 : rest.foldl minFreeStep (minFreeStep acc a) = some m := by
      simpa using h
    obtain ⟨G1, G2, G3⟩ := ih h1
    rcases minFreeStep_cases acc a with ⟨hnf, heq⟩ | ⟨hf, hacc, heq⟩ |
      ⟨hf, b, hacc, hinner⟩
    · -- the head row is not free; the accumulator passes through
      rw [heq] at G1 G3
      refine ⟨?_, ?_, G3⟩
      · rcases G1 with G1 | ⟨hm, hms⟩
        · exact Or.inl G1
        · exact Or.inr ⟨List.mem_cons_of_mem a hm, hms⟩
      · intro r hr hrf
        rcases List.mem_cons.mp hr with rfl | hr
        · exact absurd hrf hnf
        · exact G2 r hr hrf
    · -- free head over an empty accumulator: it becomes the candidate
      rw [heq] at G1 G3
      have hma : m.id ≤ a.id := G3 a rfl
      refine ⟨?_, ?_, ?_⟩
      · rcases G1 with G1 | ⟨hm, hms⟩
        · cases G1
          exact Or.inr ⟨List.mem_cons_self a rest, hf⟩
        · exact Or.inr ⟨List.mem_cons_of_mem a hm, hms⟩
      · intro r hr hrf
        rcases List.mem_cons.mp hr with rfl | hr
        · exact hma
        · exact G2 r hr hrf
      · intro c hc
        rw [hacc] at hc
        cases hc
    · rcases hinner with ⟨hlt, heq⟩ | ⟨hnlt, heq⟩
      · -- free head strictly below the accumulated candidate
        rw [heq] at G1 G3
        have hma : m.id ≤ a.id := G3 a rfl
        refine ⟨?_, ?_, ?_⟩
        · rcases G1 with G1 | ⟨hm, hms⟩
          · cases G1
            exact Or.inr ⟨List.mem_cons_self a rest, hf⟩
          · exact Or.inr ⟨List.mem_cons_of_mem a hm, hms⟩
        · intro r hr hrf
          rcases List.mem_cons.mp hr with rfl | hr
          · exact hma
          · exact G2 r hr hrf
        · intro c hc
          rw [hacc] at hc
          cases hc
          exact Nat.le_trans hma (Nat.le_of_lt hlt)
      · -- free head at or above the accumulated candidate
        rw [heq] at G1 G3
        have hmb : m.id ≤ b.id := G3 b rfl
        refine ⟨?_, ?_, ?_⟩
        · rcases G1 with G1 | ⟨hm, hms⟩
          · cases G1
            exact Or.inl hacc
          · exact Or.inr ⟨List.mem_cons_of_mem a hm, hms⟩
        · intro r hr hrf
          rcases List.mem_cons.mp hr with rfl | hr
          · exact Nat.le_trans hmb (Nat.le_of_not_lt hnlt)
          · exact G2 r hr hrf
        · intro c hc
          rw [hacc] at hc
          cases hc
          exact hmb

lemma minFreeRow_eq_none_iff {tbl : List Slot} :
    minFreeRow tbl = none ↔ ∀ r ∈ tbl, r.status ≠ SlotStatus.free := by
  constructor
  · intro h
    exact (foldl_minFreeStep_eq_none h).2
  · intro h
    cases hres : minFreeRow tbl with
    | none => rfl
    | some m =>
      obtain ⟨G1, _, _⟩ := foldl_minFreeStep_eq_some hres
      rcases G1 with G1 | ⟨hm, hms⟩
      · cases G1
      · exact absurd hms (h m hm)

lemma minFreeRow_spec {tbl : List Slot} {m : Slot}
    (h : minFreeRow tbl = some m) :
    m ∈ tbl ∧ m.status = SlotStatus.free ∧
      ∀ r ∈ tbl, r.status = SlotStatus.free → m.id ≤ r.id := by
  obtain ⟨G1, G2, _⟩ := foldl_minFreeStep_eq_some h
  rcases G1 with G1 | ⟨hm, hms⟩
  · cases G1
  · exact ⟨hm, hms, G2⟩

lemma length_filter_eq_one_of_nodup {i : Nat} {tbl : List Slot}
    (hnd : (tbl.map Slot.id).Nodup) (q : Slot → Bool)
    (hq : ∀ r, q r = true → r.id = i) (r0 : Slot) (hr0 : r0 ∈ tbl)
    (hq0 : q r0 = true) : (tbl.filter q).length = 1 := by
  induction tbl with
  | nil => cases hr0
  | cons a rest ih =>
    rw [List.map_cons, List.nodup_cons] at hnd
    obtain ⟨ha, hrest⟩ := hnd
    rcases List.mem_cons.mp hr0 with rfl | hr0
    · rw [List.filter_cons_of_pos hq0]
      have hempty : rest.filter q = [] := by
        rw [List.eq_nil_iff_forall_not_mem]
        intro x hx
        obtain ⟨hxmem, hxq⟩ := List.mem_filter.mp hx
        exact ha (by rw [hq r0 hq0, ← hq x hxq]; exact List.mem_map_of_mem Slot.id hxmem)
      rw [hempty]
      rfl
    · have haq : q a = false := by
        by_contra hcon
        have : q a = true := by
          cases hqa : q a
          · exact absurd hqa hcon
          · rfl
        exact ha (by rw [hq a this, ← hq r0 hq0]; exact List.mem_map_of_mem Slot.id hr0)
      rw [List.filter_cons_of_neg (by rw [haq]; simp)]
      exact ih hrest hr0

/-- C2: for every store state with distinct slot ids, `AllocateSlot`
succeeds whenever a FREE slot exists, marking exactly the minimum-id
FREE row USED (with `user_id` set exactly when the argument is
non-empty, via the conditional `allocUpdate`), and returns the
`no_free_ports` error, leaving the table unchanged, exactly when no FREE
slot exists. -/
theorem allocate_min_free_or_no_free (userID : String) (now : Nat)
    (tbl : List Slot) (hnd : (tbl.map Slot.id).Nodup) :
    ((∃ r ∈ tbl, r.status = SlotStatus.free) →
      ∃ s, (AllocateSlot userID now tbl).1 = Except.ok s ∧
        s.status = SlotStatus.used ∧
        (∃ row ∈ tbl, row.status = SlotStatus.free ∧ row.id = s.id ∧
          row.password = s.password ∧ row.shardId = s.shardId) ∧
        (∀ r ∈ tbl, r.status = SlotStatus.free → s.id ≤ r.id) ∧
        (tbl.filter fun r => r.id = s.id ∧ r.status = SlotStatus.free).length = 1 ∧
        (AllocateSlot userID now tbl).2 =
          allocUpdate s.id (if userID = "" then none else some userID) now tbl) ∧
    ((∀ r ∈ tbl, r.status ≠ SlotStatus.free) →
      AllocateSlot userID now tbl = (Except.error AllocErr.noFreePorts, tbl)) := by
  constructor
  · rintro ⟨r0, hr0, hr0f⟩
    cases hres : minFreeRow tbl with
    | none => exact absurd hr0f ((foldl_minFreeStep_eq_none hres).2 r0 hr0)
    | some row =>
      obtain ⟨hrow, hrowf, hmin⟩ := minFreeRow_spec hres
      have haff : allocAffected row.id tbl = 1 := by
        refine length_filter_eq_one_of_nodup (i := row.id) hnd _ ?_ row hrow ?_
        · intro r hq
          simp only [decide_eq_true_eq] at hq
          exact hq.1
        · simp [hrowf]
      have heq : AllocateSlot userID now tbl =
          (Except.ok
            { id := row.id, shardId := row.shardId, password := row.password,
              status := SlotStatus.used, userId := none, updatedAt := 0 },
            allocUpdate row.id (if userID = "" then none else some userID)
              now tbl) := by
        unfold AllocateSlot
        rw [hres]
        simp [haff]
      refine ⟨⟨row.id, row.shardId, row.password, SlotStatus.used, none, 0⟩,
        by rw [heq], rfl, ⟨row, hrow, hrowf, rfl, rfl, rfl⟩, hmin, haff,
        by rw [heq]⟩
  · intro h
    have hres : minFreeRow tbl = none := minFreeRow_eq_none_iff.mpr h
    unfold AllocateSlot
    rw [hres]

/-- Concrete store used by the C2 witness: one USED slot and one last
remaining FREE slot. -/
def tblC2 : List Slot :=
  [{ id := 1, shardId := 1, password := "pa", status := SlotStatus.used,
     userId := some "u1", updatedAt := 0 },
   { id := 2, shardId := 1, password := "pb", status := SlotStatus.free,
     userId := none, updatedAt := 0 }]

/-- Witness for C2 at a concrete table whose last FREE slot is
allocated. -/
theorem allocate_min_free_or_no_free_witness :
    (tblC2.map Slot.id).Nodup ∧
      (((∃ r ∈ tblC2, r.status = SlotStatus.free) →
        ∃ s, (AllocateSlot "u2" 7 tblC2).1 = Except.ok s ∧
          s.status = SlotStatus.used ∧
          (∃ row ∈ tblC2, row.status = SlotStatus.free ∧ row.id = s.id ∧
            row.password = s.password ∧ row.shardId = s.shardId) ∧
          (∀ r ∈ tblC2, r.status = SlotStatus.free → s.id ≤ r.id) ∧
          (tblC2.filter fun r => r.id = s.id ∧ r.status = SlotStatus.free).length = 1 ∧
          (AllocateSlot "u2" 7 tblC2).2 =
            allocUpdate s.id (if "u2" = "" then none else some "u2") 7 tblC2) ∧
      ((∀ r ∈ tblC2, r.status ≠ SlotStatus.free) →
        AllocateSlot "u2" 7 tblC2 = (Except.error AllocErr.noFreePorts, tblC2))) :=
  ⟨by decide, allocate_min_free_or_no_free "u2" 7 tblC2 (by decide)⟩

lemma reserveUpdate_id_of_no_used (slotID now : Nat) {tbl : List Slot}
    (h : ∀ r ∈ tbl, ¬(r.id = slotID ∧ r.status = SlotStatus.used)) :
    reserveUpdate slotID now tbl = tbl := by
  unfold reserveUpdate
  have : tbl.map (fun r =>
      if r.id = slotID ∧ r.status = SlotStatus.used then
        { r with status := SlotStatus.reserved, userId := none, updatedAt := now }
      else r) = tbl.map id := by
    refine List.map_congr_left ?_
    intro r hr
    rw [if_neg (h r hr)]
    rfl
  rw [this, List.map_id]

lemma reserve_affected_zero {slotID : Nat} {tbl : List Slot}
    (h : ∀ r ∈ tbl, ¬(r.id = slotID ∧ r.status = SlotStatus.used)) :
    (tbl.filter fun r => r.id = slotID ∧ r.status = SlotStatus.used).length = 0 := by
  rw [List.length_eq_zero, List.filter_eq_nil_iff]
  intro r hr
  simpa using h r hr

/-- C5: for every store with distinct slot ids, reserving a USED slot
succeeds and turns exactly that slot RESERVED (clearing `user_id`);
reserving an unknown id fails with `slot_not_found` (HTTP 404), an
already RESERVED slot with `already_reserved` (HTTP 400), and a FREE
slot with `slot_not_in_use` (HTTP 400); every failure leaves the table
unchanged. -/
theorem reserve_transitions (slotID now : Nat) (tbl : List Slot)
    (hnd : (tbl.map Slot.id).Nodup) :
    ((∃ r ∈ tbl, r.id = slotID ∧ r.status = SlotStatus.used) →
      ReserveSlot slotID now tbl = (Except.ok (), reserveUpdate slotID now tbl) ∧
      ∀ r ∈ reserveUpdate slotID now tbl, r.id = slotID →
        r.status = SlotStatus.reserved ∧ r.userId = none) ∧
    ((∀ r ∈ tbl, r.id ≠ slotID) →
      ReserveSlot slotID now tbl = (Except.error ReserveErr.slotNotFound, tbl) ∧
      reserveHttpError ReserveErr.slotNotFound = (404, "slot_not_found")) ∧
    ((∃ r ∈ tbl, r.id = slotID ∧ r.status = SlotStatus.reserved) →
      ReserveSlot slotID now tbl = (Except.error ReserveErr.slotReserved, tbl) ∧
      reserveHttpError ReserveErr.slotReserved = (400, "already_reserved")) ∧
    ((∃ r ∈ tbl, r.id = slotID ∧ r.status = SlotStatus.free) →
      ReserveSlot slotID now tbl = (Except.error ReserveErr.slotFree, tbl) ∧
      reserveHttpError ReserveErr.slotFree = (400, "slot_not_in_use")) := by
  have hinj := List.inj_on_of_nodup_map hnd
  refine ⟨?_, ?_, ?_, ?_⟩
  · rintro ⟨r0, hr0, hr0id, hr0st⟩
    have haff : (tbl.filter fun r =>
        r.id = slotID ∧ r.status = SlotStatus.used).length = 1 := by
      refine length_filter_eq_one_of_nodup (i := slotID) hnd _ ?_ r0 hr0 ?_
      · intro r hq
        simp only [decide_eq_true_eq] at hq
        exact hq.1
      · simp [hr0id, hr0st]
    constructor
    · unfold ReserveSlot
      rw [haff]
      simp
    · intro r hr hrid
      unfold reserveUpdate at hr
      obtain ⟨x, hx, rfl⟩ := List.mem_map.mp hr
      by_cases hc : x.id = slotID ∧ x.status = SlotStatus.used
      · rw [if_pos hc]
        exact ⟨rfl, rfl⟩
      · exfalso
        rw [if_neg hc] at hrid
        have hxr0 : x = r0 := hinj hx hr0 (by rw [hrid, hr0id])
        exact hc ⟨hrid, by rw [hxr0]; exact hr0st⟩
  · intro h
    have hno : ∀ r ∈ tbl, ¬(r.id = slotID ∧ r.status = SlotStatus.used) :=
      fun r hr hc => h r hr hc.1
    have hupd := reserveUpdate_id_of_no_used slotID now hno
    have hfind : tbl.find? (fun r => r.id = slotID) = none := by
      rw [List.find?_eq_none]
      intro r hr
      simpa using h r hr
    refine ⟨?_, rfl⟩
    unfold ReserveSlot
    rw [reserve_affected_zero hno]
    simp only [OfNat.zero_ne_ofNat, if_false]
    unfold slotStatusOf
    rw [hupd, hfind]
    rfl
  · rintro ⟨r0, hr0, hr0id, hr0st⟩
    have hno : ∀ r ∈ tbl, ¬(r.id = slotID ∧ r.status = SlotStatus.used) := by
      intro r hr hc
      have : r = r0 := hinj hr hr0 (by rw [hc.1, hr0id])
      rw [this, hr0st] at hc
      cases hc.2
    have hupd := reserveUpdate_id_of_no_used slotID now hno
    cases hfind : tbl.find? (fun r => r.id = slotID) with
    | none =>
      exfalso
      have := List.find?_eq_none.mp hfind r0 hr0
      simp [hr0id] at this
    | some x =>
      have hxid : x.id = slotID := by
        have := List.find?_some hfind
        simpa using this
      have hxmem := List.mem_of_find?_eq_some hfind
      have hxr0 : x = r0 := hinj hxmem hr0 (by rw [hxid, hr0id])
      refine ⟨?_, rfl⟩
      unfold ReserveSlot
      rw [reserve_affected_zero hno]
      simp only [OfNat.zero_ne_ofNat, if_false]
      unfold slotStatusOf
      rw [hupd, hfind, hxr0]
      simp [hr0st]
  · rintro ⟨r0, hr0, hr0id, hr0st⟩
    have hno : ∀ r ∈ tbl, ¬(r.id = slotID ∧ r.status = SlotStatus.used) := by
      intro r hr hc
      have : r = r0 := hinj hr hr0 (by rw [hc.1, hr0id])
      rw [this, hr0st] at hc
      cases hc.2
    have hupd := reserveUpdate_id_of_no_used slotID now hno
    cases hfind : tbl.find? (fun r => r.id = slotID) with
    | none =>
      exfalso
      have := List.find?_eq_none.mp hfind r0 hr0
      simp [hr0id] at this
    | some x =>
      have hxid : x.id = slotID := by
        have := List.find?_some hfind
        simpa using this
      have hxmem := List.mem_of_find?_eq_some hfind
      have hxr0 : x = r0 := hinj hxmem hr0 (by rw [hxid, hr0id])
      refine ⟨?_, rfl⟩
      unfold ReserveSlot
      rw [reserve_affected_zero hno]
      simp only [OfNat.zero_ne_ofNat, if_false]
      unfold slotStatusOf
      rw [hupd, hfind, hxr0]
      simp [hr0st]

/-- Concrete store used by the C5 witness: one USED slot carrying a
user id. -/
def tblC5 : List Slot :=
  [{ id := 4, shardId := 1, password := "pw", status := SlotStatus.used,
     userId := some "alice", updatedAt := 0 }]

/-- Witness for C5: reserving the USED slot 4 of `tblC5` succeeds and
resets its user id. -/
theorem reserve_transitions_witness :
    (tblC5.map Slot.id).Nodup ∧
      (ReserveSlot 4 9 tblC5 = (Except.ok (), reserveUpdate 4 9 tblC5) ∧
        ∀ r ∈ reserveUpdate 4 9 tblC5, r.id = 4 →
          r.status = SlotStatus.reserved ∧ r.userId = none) :=
  ⟨by decide,
    (reserve_transitions 4 9 tblC5 (by decide)).1
      ⟨{ id := 4, shardId := 1, password := "pw", status := SlotStatus.used,
         userId := some "alice", updatedAt := 0 }, by decide, rfl, rfl⟩⟩

lemma rotateLoop_length (fresh : Nat → String) (now : Nat) :
    ∀ (ids : List Nat) (ctr count : Nat) (tbl : List Slot),
      ((rotateLoop fresh now ids ctr count tbl).2.2).length = tbl.length := by
  intro ids
  induction ids with
  | nil => intro ctr count tbl; rfl
  | cons a rest ih =>
    intro ctr count tbl
    simp only [rotateLoop]
    rw [ih]
    simp [rotateUpdate]

lemma rotateLoop_count (fresh : Nat → String) (now : Nat) :
    ∀ (ids : List Nat) (ctr count : Nat) (tbl : List Slot),
      (rotateLoop fresh now ids ctr count tbl).1 = count + ids.length ∧
      (rotateLoop fresh now ids ctr count tbl).2.1 = ctr + ids.length := by
  intro ids
  induction ids with
  | nil => intro ctr count tbl; simp [rotateLoop]
  | cons a rest ih =>
    intro ctr count tbl
    simp only [rotateLoop]
    obtain ⟨h1, h2⟩ := ih (ctr + 1) (count + 1) (rotateUpdate a (fresh ctr) now tbl)
    refine ⟨?_, ?_⟩
    · rw [h1]; simp; omega
    · rw [h2]; simp; omega

lemma rotateLoop_pointwise (fresh : Nat → String) (now : Nat) :
    ∀ (ids : List Nat), ids.Nodup →
      ∀ (ctr count : Nat) (tbl : List Slot) (i : Nat) (hi : i < tbl.length)
        (hi' : i < ((rotateLoop fresh now ids ctr count tbl).2.2).length),
      ((tbl.get ⟨i, hi⟩).id ∈ ids →
        ∃ k, ctr ≤ k ∧ k < ctr + ids.length ∧
          ((rotateLoop fresh now ids ctr count tbl).2.2).get ⟨i, hi'⟩ =
            { tbl.get ⟨i, hi⟩ with
                password := fresh k, status := SlotStatus.free, updatedAt := now }) ∧
      ((tbl.get ⟨i, hi⟩).id ∉ ids →
        ((rotateLoop fresh now ids ctr count tbl).2.2).get ⟨i, hi'⟩ =
          tbl.get ⟨i, hi⟩) := by
  intro ids
  induction ids with
  | nil =>
    intro _ ctr count tbl i hi hi'
    exact ⟨fun h => absurd h (List.not_mem_nil _), fun _ => rfl⟩
  | cons a rest ih =>
    intro hnodup ctr count tbl i hi hi'
    obtain ⟨ha, hrest⟩ := List.nodup_cons.mp hnodup
    have hlenA : (rotateUpdate a (fresh ctr) now tbl).length = tbl.length := by
      simp [rotateUpdate]
    have hiA : i < (rotateUpdate a (fresh ctr) now tbl).length := by omega
    have hgetA : (rotateUpdate a (fresh ctr) now tbl).get ⟨i, hiA⟩ =
        (if (tbl.get ⟨i, hi⟩).id = a then
          { tbl.get ⟨i, hi⟩ with
              password := fresh ctr, status := SlotStatus.free, updatedAt := now }
        else tbl.get ⟨i, hi⟩) := by
      simp [rotateUpdate, List.get_eq_getElem, List.getElem_map]
    have IH := ih hrest (ctr + 1) (count + 1)
      (rotateUpdate a (fresh ctr) now tbl) i hiA hi'
    constructor
    · intro hin
      by_cases hida : (tbl.get ⟨i, hi⟩).id = a
      · have hA : (rotateUpdate a (fresh ctr) now tbl).get ⟨i, hiA⟩ =
            { tbl.get ⟨i, hi⟩ with
                password := fresh ctr, status := SlotStatus.free, updatedAt := now } := by
          rw [hgetA, if_pos hida]
        have hnotin :
            ((rotateUpdate a (fresh ctr) now tbl).get ⟨i, hiA⟩).id ∉ rest := by
          rw [hA]
          show (tbl.get ⟨i, hi⟩).id ∉ rest
          rw [hida]
          exact ha
        refine ⟨ctr, Nat.le_refl _, by simp, ?_⟩
        have hres := IH.2 hnotin
        exact hres.trans hA
      · have hinrest : (tbl.get ⟨i, hi⟩).id ∈ rest := by
          rcases List.mem_cons.mp hin with h | h
          · exact absurd h hida
          · exact h
        have hA : (rotateUpdate a (fresh ctr) now tbl).get ⟨i, hiA⟩ =
            tbl.get ⟨i, hi⟩ := by rw [hgetA, if_neg hida]
        have hidA :
            ((rotateUpdate a (fresh ctr) now tbl).get ⟨i, hiA⟩).id ∈ rest := by
          rw [hA]; exact hinrest
        obtain ⟨k, hk1, hk2, hk3⟩ := IH.1 hidA
        refine ⟨k, by omega, by simp only [List.length_cons]; omega, ?_⟩
        rw [hA] at hk3
        exact hk3
    · intro hnin
      have hsplit : (tbl.get ⟨i, hi⟩).id ≠ a ∧ (tbl.get ⟨i, hi⟩).id ∉ rest := by
        constructor
        · intro h; exact hnin (by rw [h]; exact List.mem_cons_self a rest)
        · intro h; exact hnin (List.mem_cons_of_mem a h)
      have hA : (rotateUpdate a (fresh ctr) now tbl).get ⟨i, hiA⟩ =
          tbl.get ⟨i, hi⟩ := by rw [hgetA, if_neg hsplit.1]
      have hres := IH.2 (by rw [hA]; exact hsplit.2)
      rw [hA] at hres
      exact hres

lemma rotate_ids_nodup {tbl : List Slot} (hnd : (tbl.map Slot.id).Nodup)
    (p : Slot → Bool) :
    (List.insertionSort (· ≤ ·) ((tbl.filter p).map Slot.id)).Nodup :=
  ((List.perm_insertionSort _ _).nodup_iff).mpr
    (((tbl.filter_sublist (p := p)).map Slot.id).nodup hnd)

lemma rotate_ids_length (tbl : List Slot) (p : Slot → Bool) :
    (List.insertionSort (· ≤ ·) ((tbl.filter p).map Slot.id)).length =
      (tbl.filter p).length := by
  rw [(List.perm_insertionSort _ _).length_eq, List.length_map]

lemma rotate_ids_mem {tbl : List Slot} (hnd : (tbl.map Slot.id).Nodup)
    (p : Slot → Bool) {r : Slot} (hr : r ∈ tbl) :
    r.id ∈ List.insertionSort (· ≤ ·) ((tbl.filter p).map Slot.id) ↔
      p r = true := by
  rw [(List.perm_insertionSort _ _).mem_iff]
  constructor
  · intro h
    obtain ⟨x, hx, hxid⟩ := List.mem_map.mp h
    obtain ⟨hxmem, hxp⟩ := List.mem_filter.mp hx
    have : x = r := List.inj_on_of_nodup_map hnd hxmem hr hxid
    rw [← this]
    exact hxp
  · intro h
    exact List.mem_map_of_mem Slot.id (List.mem_filter.mpr ⟨hr, h⟩)

lemma allocUpdate_map_password (slotID : Nat) (uv : Option String)
    (now : Nat) (tbl : List Slot) :
    (allocUpdate slotID uv now tbl).map Slot.password =
      tbl.map Slot.password := by
  unfold allocUpdate
  rw [List.map_map]
  refine List.map_congr_left ?_
  intro r hr
  by_cases hc : r.id = slotID ∧ r.status = SlotStatus.free
  · simp [hc]
  · simp [hc]

lemma reserveUpdate_map_password (slotID now : Nat) (tbl : List Slot) :
    (reserveUpdate slotID now tbl).map Slot.password =
      tbl.map Slot.password := by
  unfold reserveUpdate
  rw [List.map_map]
  refine List.map_congr_left ?_
  intro r hr
  by_cases hc : r.id = slotID ∧ r.status = SlotStatus.used
  · simp [hc]
  · simp [hc]

lemma ReserveSlot_snd (slotID now : Nat) (tbl : List Slot) :
    (ReserveSlot slotID now tbl).2 = reserveUpdate slotID now tbl := by
  unfold ReserveSlot
  by_cases h : (tbl.filter fun r =>
      r.id = slotID ∧ r.status = SlotStatus.used).length = 1
  · rw [if_pos h]
  · rw [if_neg h]
    cases slotStatusOf slotID (reserveUpdate slotID now tbl) with
    | none => rfl
    | some s => cases s <;> rfl

lemma AllocateSlot_snd_map_password (userID : String) (now : Nat)
    (tbl : List Slot) :
    ((AllocateSlot userID now tbl).2).map Slot.password =
      tbl.map Slot.password := by
  unfold AllocateSlot
  cases hres : minFreeRow tbl with
  | none => rfl
  | some row =>
    by_cases h0 : allocAffected row.id tbl = 0
    · simp [h0]
    · simp [h0, allocUpdate_map_password]

/-- C6: `RotateReserved` sets every RESERVED slot of the target shard to
FREE with a freshly generated password (an unused index of the password
supply) and returns the number of such slots; every other slot of the
table — other statuses and other shards alike — is returned unchanged.
Moreover neither `AllocateSlot` nor `ReserveSlot` ever changes any
slot password. -/
theorem rotate_reserved_rotates_and_frames (fresh : Nat → String)
    (ctr now shardID : Nat) (tbl : List Slot)
    (hnd : (tbl.map Slot.id).Nodup) :
    (RotateReserved fresh ctr now shardID tbl).1 =
      (tbl.filter fun r =>
        r.status = SlotStatus.reserved ∧ r.shardId = shardID).length ∧
    (RotateReserved fresh ctr now shardID tbl).2.1 =
      ctr + (RotateReserved fresh ctr now shardID tbl).1 ∧
    ((RotateReserved fresh ctr now shardID tbl).2.2).length = tbl.length ∧
    (∀ (i : Nat) (hi : i < tbl.length)
        (hi2 : i < ((RotateReserved fresh ctr now shardID tbl).2.2).length),
      ((tbl.get ⟨i, hi⟩).status = SlotStatus.reserved ∧
          (tbl.get ⟨i, hi⟩).shardId = shardID →
        ∃ k, ctr ≤ k ∧
          k < ctr + (RotateReserved fresh ctr now shardID tbl).1 ∧
          ((RotateReserved fresh ctr now shardID tbl).2.2).get ⟨i, hi2⟩ =
            { tbl.get ⟨i, hi⟩ with
                password := fresh k, status := SlotStatus.free, updatedAt := now }) ∧
      (¬((tbl.get ⟨i, hi⟩).status = SlotStatus.reserved ∧
          (tbl.get ⟨i, hi⟩).shardId = shardID) →
        ((RotateReserved fresh ctr now shardID tbl).2.2).get ⟨i, hi2⟩ =
          tbl.get ⟨i, hi⟩)) ∧
    (∀ (userID : String) (now2 : Nat),
      ((AllocateSlot userID now2 tbl).2).map Slot.password =
        tbl.map Slot.password) ∧
    (∀ (slotID now2 : Nat),
      ((ReserveSlot slotID now2 tbl).2).map Slot.password =
        tbl.map Slot.password) := by
  have hcount := rotateLoop_count fresh now
    (List.insertionSort (· ≤ ·) ((tbl.filter fun r =>
      r.status = SlotStatus.reserved ∧ r.shardId = shardID).map Slot.id))
    ctr 0 tbl
  have hlen := rotateLoop_length fresh now
    (List.insertionSort (· ≤ ·) ((tbl.filter fun r =>
      r.status = SlotStatus.reserved ∧ r.shardId = shardID).map Slot.id))
    ctr 0 tbl
  have hidslen := rotate_ids_length tbl (fun r =>
    decide (r.status = SlotStatus.reserved ∧ r.shardId = shardID))
  have h1 : (RotateReserved fresh ctr now shardID tbl).1 =
      (tbl.filter fun r =>
        r.status = SlotStatus.reserved ∧ r.shardId = shardID).length := by
    show (rotateLoop fresh now _ ctr 0 tbl).1 = _
    rw [hcount.1, Nat.zero_add]
    exact hidslen
  refine ⟨h1, ?_, ?_, ?_, ?_, ?_⟩
  · show (rotateLoop fresh now _ ctr 0 tbl).2.1 = _
    rw [hcount.2, h1]
    show ctr + _ = ctr + _
    rw [← hidslen]
  · exact hlen
  · intro i hi hi2
    have hi2' : i < ((rotateLoop fresh now
        (List.insertionSort (· ≤ ·) ((tbl.filter fun r =>
          r.status = SlotStatus.reserved ∧ r.shardId = shardID).map Slot.id))
        ctr 0 tbl).2.2).length := hi2
    have P := rotateLoop_pointwise fresh now
      (List.insertionSort (· ≤ ·) ((tbl.filter fun r =>
        r.status = SlotStatus.reserved ∧ r.shardId = shardID).map Slot.id))
      (rotate_ids_nodup hnd _) ctr 0 tbl i hi hi2'
    have hmem := rotate_ids_mem hnd (fun r =>
        decide (r.status = SlotStatus.reserved ∧ r.shardId = shardID))
      (List.get_mem tbl i hi)
    constructor
    · intro hprop
      obtain ⟨k, hk1, hk2, hk3⟩ := P.1 (hmem.mpr (decide_eq_true hprop))
      refine ⟨k, hk1, ?_, hk3⟩
      rw [h1, ← hidslen]
      exact hk2
    · intro hprop
      refine P.2 ?_
      rw [hmem]
      simpa using hprop
  · intro userID now2
    exact AllocateSlot_snd_map_password userID now2 tbl
  · intro slotID now2
    rw [ReserveSlot_snd]
    exact reserveUpdate_map_password slotID now2 tbl

/-- Concrete store used by the C6 witness: two RESERVED slots in
different shards and a USED slot in between. -/
def tblC6 : List Slot :=
  [{ id := 1, shardId := 1, password := "a", status := SlotStatus.reserved,
     userId := none, updatedAt := 0 },
   { id := 2, shardId := 1, password := "b", status := SlotStatus.used,
     userId := some "u", updatedAt := 0 },
   { id := 3, shardId := 2, password := "c", status := SlotStatus.reserved,
     userId := none, updatedAt := 0 }]

/-- Witness for C6: rotating shard 1 of `tblC6`. -/
theorem rotate_reserved_rotates_and_frames_witness :
    (tblC6.map Slot.id).Nodup ∧
      ((RotateReserved (fun k => "f" ++ toString k) 10 5 1 tblC6).1 =
        (tblC6.filter fun r =>
          r.status = SlotStatus.reserved ∧ r.shardId = 1).length ∧
      (RotateReserved (fun k => "f" ++ toString k) 10 5 1 tblC6).2.1 =
        10 + (RotateReserved (fun k => "f" ++ toString k) 10 5 1 tblC6).1 ∧
      ((RotateReserved (fun k => "f" ++ toString k) 10 5 1 tblC6).2.2).length =
        tblC6.length ∧
      (∀ (i : Nat) (hi : i < tblC6.length)
          (hi2 : i < ((RotateReserved (fun k => "f" ++ toString k) 10 5 1 tblC6).2.2).length),
        ((tblC6.get ⟨i, hi⟩).status = SlotStatus.reserved ∧
            (tblC6.get ⟨i, hi⟩).shardId = 1 →
          ∃ k, 10 ≤ k ∧
            k < 10 + (RotateReserved (fun k => "f" ++ toString k) 10 5 1 tblC6).1 ∧
            ((RotateReserved (fun k => "f" ++ toString k) 10 5 1 tblC6).2.2).get ⟨i, hi2⟩ =
              { tblC6.get ⟨i, hi⟩ with
                  password := (fun k => "f" ++ toString k) k,
                  status := SlotStatus.free, updatedAt := 5 }) ∧
        (¬((tblC6.get ⟨i, hi⟩).status = SlotStatus.reserved ∧
            (tblC6.get ⟨i, hi⟩).shardId = 1) →
          ((RotateReserved (fun k => "f" ++ toString k) 10 5 1 tblC6).2.2).get ⟨i, hi2⟩ =
            tblC6.get ⟨i, hi⟩)) ∧
      (∀ (userID : String) (now2 : Nat),
        ((AllocateSlot userID now2 tblC6).2).map Slot.password =
          tblC6.map Slot.password) ∧
      (∀ (slotID now2 : Nat),
        ((ReserveSlot slotID now2 tblC6).2).map Slot.password =
          tblC6.map Slot.password)) :=
  ⟨by decide,
    rotate_reserved_rotates_and_frames (fun k => "f" ++ toString k) 10 5 1
      tblC6 (by decide)⟩

/-- The invariant of C10: a slot that is not USED carries no user id. -/
def userIdAbsentInv (tbl : List Slot) : Prop :=
  ∀ r ∈ tbl, (r.status = SlotStatus.free ∨ r.status = SlotStatus.reserved) →
    r.userId = none

/-- C10: a successful (indeed, any) reserve clears `user_id` on the
targeted slot in the same update, and the invariant "FREE or RESERVED
implies no user id" is preserved by `AllocateSlot`, `ReserveSlot` and
`RotateReserved`. -/
theorem user_id_absent_invariant (tbl : List Slot)
    (hnd : (tbl.map Slot.id).Nodup) (hinv : userIdAbsentInv tbl) :
    (∀ (userID : String) (now : Nat),
      userIdAbsentInv (AllocateSlot userID now tbl).2) ∧
    (∀ (slotID now : Nat), userIdAbsentInv (ReserveSlot slotID now tbl).2) ∧
    (∀ (slotID now : Nat), ∀ r ∈ (ReserveSlot slotID now tbl).2,
      r.id = slotID → r.userId = none) ∧
    (∀ (fresh : Nat → String) (ctr now shardID : Nat),
      userIdAbsentInv (RotateReserved fresh ctr now shardID tbl).2.2) := by
  refine ⟨?_, ?_, ?_, ?_⟩
  · intro userID now
    unfold AllocateSlot
    cases hres : minFreeRow tbl with
    | none => exact hinv
    | some row =>
      by_cases h0 : allocAffected row.id tbl = 0
      · simp only [h0, if_true]
        exact hinv
      · simp only [h0, if_false]
        intro r' hr' hst
        obtain ⟨x, hx, rfl⟩ := List.mem_map.mp hr'
        by_cases hc : x.id = row.id ∧ x.status = SlotStatus.free
        · rw [if_pos hc] at hst ⊢
          rcases hst with h | h <;> simp at h
        · rw [if_neg hc] at hst ⊢
          exact hinv x hx hst
  · intro slotID now
    rw [ReserveSlot_snd]
    intro r' hr' hst
    obtain ⟨x, hx, rfl⟩ := List.mem_map.mp hr'
    by_cases hc : x.id = slotID ∧ x.status = SlotStatus.used
    · rw [if_pos hc]
    · rw [if_neg hc] at hst ⊢
      exact hinv x hx hst
  · intro slotID now r' hr' hid
    rw [ReserveSlot_snd] at hr'
    obtain ⟨x, hx, rfl⟩ := List.mem_map.mp hr'
    by_cases hc : x.id = slotID ∧ x.status = SlotStatus.used
    · rw [if_pos hc]
    · rw [if_neg hc] at hid ⊢
      cases hxs : x.status with
      | used => exact absurd ⟨hid, hxs⟩ hc
      | free => exact hinv x hx (Or.inl hxs)
      | reserved => exact hinv x hx (Or.inr hxs)
  · intro fresh ctr now shardID r' hr' hst
    have hlen := rotateLoop_length fresh now
      (List.insertionSort (· ≤ ·) ((tbl.filter fun r =>
        r.status = SlotStatus.reserved ∧ r.shardId = shardID).map Slot.id))
      ctr 0 tbl
    have hr2 : r' ∈ (rotateLoop fresh now
        (List.insertionSort (· ≤ ·) ((tbl.filter fun r =>
          r.status = SlotStatus.reserved ∧ r.shardId = shardID).map Slot.id))
        ctr 0 tbl).2.2 := hr'
    obtain ⟨⟨i, hi2⟩, hget⟩ := List.mem_iff_get.mp hr2
    have hi : i < tbl.length := by rw [← hlen]; exact hi2
    have P := rotateLoop_pointwise fresh now
      (List.insertionSort (· ≤ ·) ((tbl.filter fun r =>
        r.status = SlotStatus.reserved ∧ r.shardId = shardID).map Slot.id))
      (rotate_ids_nodup hnd _) ctr 0 tbl i hi hi2
    have hmem := rotate_ids_mem hnd (fun r =>
        decide (r.status = SlotStatus.reserved ∧ r.shardId = shardID))
      (List.get_mem tbl i hi)
    by_cases hp : (tbl.get ⟨i, hi⟩).status = SlotStatus.reserved ∧
        (tbl.get ⟨i, hi⟩).shardId = shardID
    · obtain ⟨k, _, _, hk⟩ := P.1 (hmem.mpr (decide_eq_true hp))
      rw [← hget, hk]
      exact hinv (tbl.get ⟨i, hi⟩) (List.get_mem tbl i hi) (Or.inr hp.1)
    · have hsame := P.2 (by rw [hmem]; simpa using hp)
      rw [← hget, hsame] at hst ⊢
      exact hinv (tbl.get ⟨i, hi⟩) (List.get_mem tbl i hi) hst

/-- Witness for C10: the invariant holds on `tblC6` and is preserved by
the three operations. -/
theorem user_id_absent_invariant_witness :
    ((tblC6.map Slot.id).Nodup ∧ userIdAbsentInv tblC6) ∧
      ((∀ (userID : String) (now : Nat),
        userIdAbsentInv (AllocateSlot userID now tblC6).2) ∧
      (∀ (slotID now : Nat), userIdAbsentInv (ReserveSlot slotID now tblC6).2) ∧
      (∀ (slotID now : Nat), ∀ r ∈ (ReserveSlot slotID now tblC6).2,
        r.id = slotID → r.userId = none) ∧
      (∀ (fresh : Nat → String) (ctr now shardID : Nat),
        userIdAbsentInv (RotateReserved fresh ctr now shardID tblC6).2.2)) :=
  ⟨⟨by decide, by unfold userIdAbsentInv; decide⟩,
    user_id_absent_invariant tblC6 (by decide)
      (by unfold userIdAbsentInv; decide)⟩

/-- Three rows of shard 1 used by the C8 counterexample. -/
def tblC8 : List Slot :=
  [{ id := 1, shardId := 1, password := "a", status := SlotStatus.free,
     userId := none, updatedAt := 0 },
   { id := 2, shardId := 1, password := "b", status := SlotStatus.free,
     userId := none, updatedAt := 0 },
   { id := 3, shardId := 1, password := "c", status := SlotStatus.free,
     userId := none, updatedAt := 0 }]

/-- C8 counterexample: shard 1 holds 3 rows but `SlotsByShard` with
`expected = 2` succeeds (the `LIMIT expected` clause caps the read), so
the claimed error on a surplus of rows does not occur. -/
theorem slots_by_shard_no_error_on_surplus :
    SlotsByShard 1 2 tblC8 =
      Except.ok
        [{ id := 1, shardId := 1, password := "a", status := SlotStatus.free,
           userId := none, updatedAt := 0 },
         { id := 2, shardId := 1, password := "b", status := SlotStatus.free,
           userId := none, updatedAt := 0 }] ∧
      (tblC8.filter fun r => r.shardId = 1).length = 3 := by
  exact ⟨rfl, rfl⟩

/-- C8 (amended): `SlotsByShard` returns an error iff the shard holds
fewer rows than `expected`; when it holds `expected` or more, the first
`expected` rows in id order are returned without error. -/
theorem slots_by_shard_error_iff_fewer (shardID expected : Nat)
    (tbl : List Slot) :
    (∃ msg, SlotsByShard shardID expected tbl = Except.error msg) ↔
      (tbl.filter fun r => r.shardId = shardID).length < expected := by
  unfold SlotsByShard
  have hlen : ((List.insertionSort (fun a b => a.id ≤ b.id)
      (tbl.filter fun r => r.shardId = shardID)).take expected).length =
      min expected (tbl.filter fun r => r.shardId = shardID).length := by
    rw [List.length_take, (List.perm_insertionSort _ _).length_eq]
  by_cases h : ((List.insertionSort (fun a b => a.id ≤ b.id)
      (tbl.filter fun r => r.shardId = shardID)).take expected).length = expected
  · rw [if_pos h]
    rw [hlen] at h
    constructor
    · rintro ⟨msg, hmsg⟩
      cases hmsg
    · intro hlt
      omega
  · rw [if_neg h]
    rw [hlen] at h
    constructor
    · intro _
      omega
    · intro _
      exact ⟨"shape_mismatch", rfl⟩

/-- C4: when the out-of-band validation rejects the pending config of a
`reloadShard` run, the run surfaces `validationFailed`, the generated
(pending) file is removed and the active file is byte-for-byte
unchanged; and for every run — any validator, any container outcomes,
any starting files — the active file either stays unchanged or ends up
holding exactly a payload the validator accepted (the rename happens
only after a successful validation). -/
theorem reload_shard_validation_failure (validate : String → Bool)
    (applyOk restartOk : Bool) (shard : ShardDefinition)
    (method psk : String) (rotate hardRestart : Bool)
    (fresh : Nat → String) (ctr now : Nat) (tbl : List Slot) (fs : ShardFS)
    (p : String)
    (hp : reloadPayload shard method psk rotate fresh ctr now tbl =
      Except.ok p)
    (hv : validate p = false) :
    (reloadShard validate applyOk restartOk shard method psk rotate
      hardRestart fresh ctr now tbl fs).1 =
        Except.error ReloadErr.validationFailed ∧
    ((reloadShard validate applyOk restartOk shard method psk rotate
      hardRestart fresh ctr now tbl fs).2.2.2).generated = none ∧
    ((reloadShard validate applyOk restartOk shard method psk rotate
      hardRestart fresh ctr now tbl fs).2.2.2).active = fs.active ∧
    (∀ (v2 : String → Bool) (a2 r2 : Bool) (fs2 : ShardFS),
      ((reloadShard v2 a2 r2 shard method psk rotate hardRestart fresh
        ctr now tbl fs2).2.2.2).active = fs2.active ∨
      ∃ q, ((reloadShard v2 a2 r2 shard method psk rotate hardRestart fresh
          ctr now tbl fs2).2.2.2).active = some q ∧ v2 q = true ∧
        ((reloadShard v2 a2 r2 shard method psk rotate hardRestart fresh
          ctr now tbl fs2).2.2.2).generated = none) := by
  cases hs : SlotsByShard shard.id shard.slotCount
      ((if rotate then RotateReserved fresh ctr now shard.id tbl
        else (0, ctr, tbl)).2.2) with
  | error e =>
    exfalso
    simp only [reloadPayload] at hp
    rw [hs] at hp
    cases hp
  | ok slots =>
    have hpp : p = buildSingboxConfig slots shard method psk := by
      simp only [reloadPayload] at hp
      rw [hs] at hp
      cases hp
      rfl
    subst hpp
    have hrun : reloadShard validate applyOk restartOk shard method psk
        rotate hardRestart fresh ctr now tbl fs =
        (Except.error ReloadErr.validationFailed,
          (if rotate then RotateReserved fresh ctr now shard.id tbl
            else (0, ctr, tbl)).2.1,
          (if rotate then RotateReserved fresh ctr now shard.id tbl
            else (0, ctr, tbl)).2.2,
          { active := fs.active, generated := none }) := by
      simp only [reloadShard]
      rw [hs]
      simp [hv]
    refine ⟨by rw [hrun], by rw [hrun], by rw [hrun], ?_⟩
    intro v2 a2 r2 fs2
    by_cases hval : v2 (buildSingboxConfig slots shard method psk) = true
    · refine Or.inr ⟨buildSingboxConfig slots shard method psk, ?_, hval, ?_⟩
      · simp only [reloadShard]
        rw [hs]
        simp only [hval, if_true]
        by_cases hinner : (if hardRestart then r2 else a2) = true <;>
          simp [hinner]
      · simp only [reloadShard]
        rw [hs]
        simp only [hval, if_true]
        by_cases hinner : (if hardRestart then r2 else a2) = true <;>
          simp [hinner]
    · refine Or.inl ?_
      simp only [reloadShard]
      rw [hs]
      simp [hval]

/-- The single shard used by the C4 and C7 witnesses. -/
def shardW : ShardDefinition :=
  { id := 1, port := 50001, slotCount := 1,
    containerName := "xray-ss2022-1", apiPort := 0 }

/-- One-slot table used by the C4 witness. -/
def tblW1 : List Slot :=
  [{ id := 1, shardId := 1, password := "pw", status := SlotStatus.free,
     userId := none, updatedAt := 0 }]

/-- Witness for C4: a rejected validation at a concrete shard state
removes the pending file and keeps the previous active bytes. -/
theorem reload_shard_validation_failure_witness :
    (reloadPayload shardW "m" "PSK" false (fun _ => "x") 0 0 tblW1 =
        Except.ok (buildSingboxConfig tblW1 shardW "m" "PSK") ∧
      (fun _ => false : String → Bool)
        (buildSingboxConfig tblW1 shardW "m" "PSK") = false) ∧
    ((reloadShard (fun _ => false) true true shardW "m" "PSK" false false
      (fun _ => "x") 0 0 tblW1 ⟨some "OLD", none⟩).1 =
        Except.error ReloadErr.validationFailed ∧
    ((reloadShard (fun _ => false) true true shardW "m" "PSK" false false
      (fun _ => "x") 0 0 tblW1 ⟨some "OLD", none⟩).2.2.2).generated = none ∧
    ((reloadShard (fun _ => false) true true shardW "m" "PSK" false false
      (fun _ => "x") 0 0 tblW1 ⟨some "OLD", none⟩).2.2.2).active =
        (⟨some "OLD", none⟩ : ShardFS).active ∧
    (∀ (v2 : String → Bool) (a2 r2 : Bool) (fs2 : ShardFS),
      ((reloadShard v2 a2 r2 shardW "m" "PSK" false false (fun _ => "x")
        0 0 tblW1 fs2).2.2.2).active = fs2.active ∨
      ∃ q, ((reloadShard v2 a2 r2 shardW "m" "PSK" false false (fun _ => "x")
          0 0 tblW1 fs2).2.2.2).active = some q ∧ v2 q = true ∧
        ((reloadShard v2 a2 r2 shardW "m" "PSK" false false (fun _ => "x")
          0 0 tblW1 fs2).2.2.2).generated = none)) :=
  ⟨⟨rfl, rfl⟩,
    reload_shard_validation_failure (fun _ => false) true true shardW "m"
      "PSK" false false (fun _ => "x") 0 0 tblW1 ⟨some "OLD", none⟩
      (buildSingboxConfig tblW1 shardW "m" "PSK") rfl rfl⟩

lemma reloadShardSt_files_frame (env : ReloadEnv) (shard : ShardDefinition)
    (rotate hardRestart : Bool) (st : AgentState) (j : Nat)
    (hj : j ≠ shard.id) :
    ((reloadShardSt env shard rotate hardRestart st).2).files j =
      st.files j := by
  simp [reloadShardSt, hj]

/-- C7: the shard loop of `reloadWithLock` is strictly sequential: on an
error-free run the result map lists exactly the given shards' ids in
order; when some shard fails, the shards split as `pre ++ fail :: post`,
the returned partial map holds exactly the shards completed before the
failure (in order) together with the error, and (for distinct shard
ids) the config files of every later shard are untouched.
`reloadWithLock` itself runs this loop on the resolved target list. -/
theorem reload_with_lock_first_error_stops (env : ReloadEnv)
    (rotate hardRestart : Bool) (shards : List ShardDefinition)
    (st : AgentState) :
    ((runShards env rotate hardRestart shards st).2.1 = none →
      ((runShards env rotate hardRestart shards st).1).map Prod.fst =
        shards.map ShardDefinition.id) ∧
    (∀ e, (runShards env rotate hardRestart shards st).2.1 = some e →
      ∃ pre fsh post, shards = pre ++ fsh :: post ∧
        ((runShards env rotate hardRestart shards st).1).map Prod.fst =
          pre.map ShardDefinition.id ∧
        ((shards.map ShardDefinition.id).Nodup →
          ∀ s ∈ post,
            ((runShards env rotate hardRestart shards st).2.2).files s.id =
              st.files s.id)) ∧
    (∀ (target : List Nat) (ds : List ShardDefinition),
      shardList shards target = Except.ok ds →
      reloadWithLock env shards target rotate hardRestart st =
        Except.ok (runShards env rotate hardRestart ds st)) := by
  refine ⟨?_, ?_, ?_⟩
  · induction shards generalizing st with
    | nil => intro _; rfl
    | cons s rest ih =>
      simp only [runShards]
      cases hstep : (reloadShardSt env s rotate hardRestart st).1 with
      | error e0 => intro h; cases h
      | ok count =>
        intro h
        simp only [List.map_cons]
        rw [ih ((reloadShardSt env s rotate hardRestart st).2) h]
  · induction shards generalizing st with
    | nil => intro e he; cases he
    | cons s rest ih =>
      simp only [runShards]
      cases hstep : (reloadShardSt env s rotate hardRestart st).1 with
      | error e0 =>
        intro e _
        refine ⟨[], s, rest, rfl, rfl, ?_⟩
        intro hnd s' hs'
        rw [List.map_cons] at hnd
        obtain ⟨hnin, _⟩ := List.nodup_cons.mp hnd
        have hne : s'.id ≠ s.id := fun hcon =>
          hnin (by rw [← hcon]; exact List.mem_map_of_mem ShardDefinition.id hs')
        exact reloadShardSt_files_frame env s rotate hardRestart st s'.id hne
      | ok count =>
        intro e he
        obtain ⟨pre, fsh, post, hsplit, hmap, hframe⟩ :=
          ih ((reloadShardSt env s rotate hardRestart st).2) e he
        refine ⟨s :: pre, fsh, post, by rw [List.cons_append, hsplit], ?_, ?_⟩
        · simp only [List.map_cons, hmap]
        · intro hnd s' hs'
          rw [List.map_cons] at hnd
          obtain ⟨hnin, hndrest⟩ := List.nodup_cons.mp hnd
          have hne : s'.id ≠ s.id := by
            intro hcon
            refine hnin ?_
            rw [← hcon]
            refine List.mem_map_of_mem ShardDefinition.id ?_
            rw [hsplit]
            exact List.mem_append_right _ (List.mem_cons_of_mem _ hs')
          rw [hframe hndrest s' hs']
          exact reloadShardSt_files_frame env s rotate hardRestart st s'.id hne
  · intro target ds hds
    unfold reloadWithLock
    rw [hds]

/-- Second shard used by the C7 witness. -/
def shardW2 : ShardDefinition :=
  { id := 2, port := 50002, slotCount := 1,
    containerName := "xray-ss2022-2", apiPort := 0 }

/-- Oracle environment for the C7 witness: shard 1 validates, shard 2
does not. -/
def envW : ReloadEnv :=
  { validate := fun sid _ => sid == 1, applyOk := fun _ => true,
    restartOk := fun _ => true, serverPassword := fun _ => "PSK",
    method := "m", fresh := fun _ => "x", now := 0 }

/-- Agent state for the C7 witness: one free slot per shard, no config
files yet. -/
def stW : AgentState :=
  { ctr := 0,
    tbl := [{ id := 1, shardId := 1, password := "p1",
              status := SlotStatus.free, userId := none, updatedAt := 0 },
            { id := 2, shardId := 2, password := "p2",
              status := SlotStatus.free, userId := none, updatedAt := 0 }],
    files := fun _ => { active := none, generated := none } }

/-- Witness for C7: with shard 2 failing validation, the run stops after
shard 1, returns the partial map for shard 1 only, and leaves every
later shard's files untouched. -/
theorem reload_with_lock_first_error_stops_witness :
    (runShards envW false false [shardW, shardW2] stW).2.1 =
      some ReloadErr.validationFailed ∧
    (∃ pre fsh post, [shardW, shardW2] = pre ++ fsh :: post ∧
      ((runShards envW false false [shardW, shardW2] stW).1).map Prod.fst =
        pre.map ShardDefinition.id ∧
      ((([shardW, shardW2]).map ShardDefinition.id).Nodup →
        ∀ s ∈ post,
          ((runShards envW false false [shardW, shardW2] stW).2.2).files s.id =
            stW.files s.id)) :=
  ⟨rfl,
    (reload_with_lock_first_error_stops envW false false
      [shardW, shardW2] stW).2.1 ReloadErr.validationFailed rfl⟩

/-- C1: every successful `/adduser` response carries as its password
field the shard's server PSK, a literal colon and the allocated slot's
password, in that order; in particular the slot password alone is never
the password field. -/
theorem adduser_composite_password (serverPassword : Nat → String)
    (shards : List ShardDefinition) (method ip userID : String) (now : Nat)
    (tbl : List Slot) (resp : AddUserResp)
    (hok : (handleAddUser serverPassword shards method ip userID now tbl).1 =
      Except.ok resp) :
    ∃ slot,
      (AllocateSlot userID now tbl).1 = Except.ok slot ∧
      resp.shardId = slot.shardId ∧
      resp.password = serverPassword resp.shardId ++ ":" ++ slot.password ∧
      resp.password ≠ slot.password := by
  cases halloc : (AllocateSlot userID now tbl).1 with
  | error e =>
    exfalso
    simp only [handleAddUser] at hok
    rw [halloc] at hok
    cases e <;> cases hok
  | ok slot =>
    simp only [handleAddUser] at hok
    rw [halloc] at hok
    dsimp only at hok
    cases hfind : shards.find? (fun sh => sh.id = slot.shardId) with
    | none =>
      exfalso
      rw [hfind] at hok
      cases hok
    | some shard =>
      rw [hfind] at hok
      dsimp only at hok
      have hid : shard.id = slot.shardId := by
        have := List.find?_some hfind
        simpa using this
      cases hok
      refine ⟨slot, rfl, hid, rfl, ?_⟩
      intro hcon
      have hlen := congrArg String.length hcon
      simp only [String.length_append] at hlen
      have hcolon : (":" : String).length = 1 := rfl
      omega

/-- The concrete `/adduser` response of the C1 witness. -/
def respW : AddUserResp :=
  { slotId := 1, shardId := 1, listenPort := 50001, password := "PSK:pw",
    method := "m", ip := "", freeSlots := 0 }

/-- Witness for C1: allocating the free slot of `tblW1` yields the
composite password `PSK:pw`, which differs from the slot password. -/
theorem adduser_composite_password_witness :
    (handleAddUser (fun _ => "PSK") [shardW] "m" "" "u" 0 tblW1).1 =
      Except.ok respW ∧
    (∃ slot,
      (AllocateSlot "u" 0 tblW1).1 = Except.ok slot ∧
      respW.shardId = slot.shardId ∧
      respW.password = (fun _ => "PSK" : Nat → String) respW.shardId ++ ":" ++
        slot.password ∧
      respW.password ≠ slot.password) :=
  ⟨rfl,
    adduser_composite_password (fun _ => "PSK") [shardW] "m" "" "u" 0 tblW1
      respW rfl⟩

lemma nextWaitLoop_none_forall {l : List Nat} {e : Nat}
    (h : nextWaitLoop l e = none) : ∀ s ∈ l, s ≤ e := by
  induction l with
  | nil => intro s hs; cases hs
  | cons a rest ih =>
    intro s hs
    unfold nextWaitLoop at h
    by_cases he : e < a
    · rw [if_pos he] at h
      cases h
    · rw [if_neg he] at h
      rcases List.mem_cons.mp hs with rfl | hs
      · omega
      · exact ih h s hs

lemma nextWaitLoop_some_first {l : List Nat} {e w : Nat}
    (hsort : l.Sorted (· ≤ ·)) (h : nextWaitLoop l e = some w) :
    ∃ s ∈ l, e < s ∧ w = s - e ∧ ∀ t ∈ l, e < t → s ≤ t := by
  induction l with
  | nil => cases h
  | cons a rest ih =>
    obtain ⟨hhead, hrest⟩ := List.sorted_cons.mp hsort
    unfold nextWaitLoop at h
    by_cases he : e < a
    · rw [if_pos he] at h
      cases h
      refine ⟨a, List.mem_cons_self a rest, he, rfl, ?_⟩
      intro t ht _
      rcases List.mem_cons.mp ht with rfl | ht
      · exact Nat.le_refl _
      · exact hhead t ht
    · rw [if_neg he] at h
      obtain ⟨s, hs, hes, hw, hmin⟩ := ih hrest h
      refine ⟨s, List.mem_cons_of_mem a hs, hes, hw, ?_⟩
      intro t ht het
      rcases List.mem_cons.mp ht with rfl | ht
      · omega
      · exact hmin t ht het

/-- C9: for a non-empty list of valid `HH:MM` entries and any current
UTC time of day, the scheduled-restart wait is strictly positive and
ends exactly at the earliest entry strictly later than the current time
on the same day, or, when no entry is later, at the earliest entry of
the next UTC day (`dayNs + m`). -/
theorem scheduled_restart_wait_correct (times : List (Nat × Nat))
    (elapsed : Nat) (hne : times ≠ [])
    (helapsed : elapsed < dayNs) :
    ∃ w, scheduledRestartWait times elapsed = some w ∧ 0 < w ∧
      ((∃ s ∈ times.map scheduleNs, elapsed < s) →
        (elapsed + w) ∈ times.map scheduleNs ∧
        ∀ s ∈ times.map scheduleNs, elapsed < s → elapsed + w ≤ s) ∧
      ((∀ s ∈ times.map scheduleNs, s ≤ elapsed) →
        ∃ m ∈ times.map scheduleNs, (∀ s ∈ times.map scheduleNs, m ≤ s) ∧
          elapsed + w = dayNs + m) := by
  cases hsorted : List.insertionSort (· ≤ ·) (times.map scheduleNs) with
  | nil =>
    exfalso
    have := (List.perm_insertionSort (· ≤ ·) (times.map scheduleNs)).length_eq
    rw [hsorted] at this
    simp only [List.length_nil, List.length_map] at this
    exact hne (List.length_eq_zero.mp this.symm)
  | cons first restS =>
    have hsort : (first :: restS).Sorted (· ≤ ·) := by
      rw [← hsorted]
      exact List.sorted_insertionSort _ _
    have hperm : (first :: restS).Perm (times.map scheduleNs) := by
      rw [← hsorted]
      exact List.perm_insertionSort _ _
    have hrun : scheduledRestartWait times elapsed =
        (match nextWaitLoop (first :: restS) elapsed with
          | some w => some w
          | none => some (dayNs - elapsed + first)) := by
      unfold scheduledRestartWait
      rw [hsorted]
    cases hloop : nextWaitLoop (first :: restS) elapsed with
    | some w0 =>
      obtain ⟨s, hs, hes, hw, hmin⟩ := nextWaitLoop_some_first hsort hloop
      rw [hloop] at hrun
      refine ⟨w0, hrun, by omega, ?_, ?_⟩
      · intro _
        have hsum : elapsed + w0 = s := by omega
        constructor
        · rw [hsum]
          exact hperm.mem_iff.mp hs
        · intro t ht het
          rw [hsum]
          exact hmin t (hperm.mem_iff.mpr ht) het
      · intro hall
        exfalso
        have := hall s (hperm.mem_iff.mp hs)
        omega
    | none =>
      have hall := nextWaitLoop_none_forall hloop
      rw [hloop] at hrun
      refine ⟨dayNs - elapsed + first, hrun, by omega, ?_, ?_⟩
      · rintro ⟨s, hs, hlt⟩
        exfalso
        have := hall s (hperm.mem_iff.mpr hs)
        omega
      · intro _
        refine ⟨first, hperm.mem_iff.mp (List.mem_cons_self first restS), ?_, ?_⟩
        · intro s hsmem
          rcases List.mem_cons.mp (hperm.mem_iff.mpr hsmem) with rfl | hsS
          · exact Nat.le_refl _
          · exact (List.sorted_cons.mp hsort).1 s hsS
        · omega

/-- Witness for C9: the single entry `00:00` at current time `23:59`
UTC wraps to the next day with a strictly positive wait. -/
theorem scheduled_restart_wait_correct_witness :
    ([((0 : Nat), (0 : Nat))] ≠ ([] : List (Nat × Nat)) ∧
      (23 * 3600 + 59 * 60) * 1000000000 < dayNs) ∧
    (∃ w, scheduledRestartWait [(0, 0)]
        ((23 * 3600 + 59 * 60) * 1000000000) = some w ∧ 0 < w ∧
      ((∃ s ∈ [((0 : Nat), (0 : Nat))].map scheduleNs,
          (23 * 3600 + 59 * 60) * 1000000000 < s) →
        ((23 * 3600 + 59 * 60) * 1000000000 + w) ∈
          [((0 : Nat), (0 : Nat))].map scheduleNs ∧
        ∀ s ∈ [((0 : Nat), (0 : Nat))].map scheduleNs,
          (23 * 3600 + 59 * 60) * 1000000000 < s →
          (23 * 3600 + 59 * 60) * 1000000000 + w ≤ s) ∧
      ((∀ s ∈ [((0 : Nat), (0 : Nat))].map scheduleNs,
          s ≤ (23 * 3600 + 59 * 60) * 1000000000) →
        ∃ m ∈ [((0 : Nat), (0 : Nat))].map scheduleNs,
          (∀ s ∈ [((0 : Nat), (0 : Nat))].map scheduleNs, m ≤ s) ∧
          (23 * 3600 + 59 * 60) * 1000000000 + w = dayNs + m)) :=
  ⟨⟨by decide, by decide⟩,
    scheduled_restart_wait_correct [(0, 0)]
      ((23 * 3600 + 59 * 60) * 1000000000) (by decide) (by decide)⟩

/-- The sharded-allocation scenario configuration of the spec:
`minPort=50010, maxPort=50019, shardCount=2, shardSize=5,
shardPortStep=5` over the built-in defaults (which select the
`roundrobin` strategy). -/
def scenarioConfig : Config :=
  { defaultConfig with
      minPort := 50010, maxPort := 50019, shardCount := 2,
      shardSize := 5, shardPortStep := 5 }

/-- The two shards derived from `scenarioConfig`. -/
def scenarioShards : List ShardDefinition :=
  [{ id := 1, port := 50010, slotCount := 5,
     containerName := "xray-ss2022-1", apiPort := 10085 },
   { id := 2, port := 50015, slotCount := 5,
     containerName := "xray-ss2022-2", apiPort := 10086 }]

/-- C3: under the default `roundrobin` strategy (modelled from the
spec), six sequential allocations from the freshly seeded two-shard
store return shard ids `1,2,1,2,1,2` and the matching listen ports
`50010,50015,...`; the cursor-based selection picks slots `1,6,2,7,3,8`
rather than the six globally minimal ids `1..6`. -/
theorem roundrobin_alternates :
    defaultConfig.allocStrategy = "roundrobin" ∧
    scenarioConfig.BuildShards = Except.ok scenarioShards ∧
    ((rrRun scenarioShards "" 1 6 (fun _ => 0)
        (seedSlots (fun i => "p" ++ toString i) 0 scenarioShards)).map
      Slot.shardId = [1, 2, 1, 2, 1, 2]) ∧
    ((rrRun scenarioShards "" 1 6 (fun _ => 0)
        (seedSlots (fun i => "p" ++ toString i) 0 scenarioShards)).map
      Slot.id = [1, 6, 2, 7, 3, 8]) ∧
    ((rrRun scenarioShards "" 1 6 (fun _ => 0)
        (seedSlots (fun i => "p" ++ toString i) 0 scenarioShards)).map
      (fun s => (scenarioShards.find? (fun sh => sh.id = s.shardId)).map
        ShardDefinition.port) =
      [some 50010, some 50015, some 50010, some 50015,
        some 50010, some 50015]) :=
  ⟨rfl, rfl, rfl, rfl, rfl⟩
